import Mathlib

/-!
Shallow embedding of the sweep-schedule engine, the subscription store and the
notification dispatcher of the `sweepy` repository (`src/la_sweep_bot.py`,
`src/db.py`), together with theorems settling the spec claims.

Calendar dates are embedded as natural numbers counting days from
January 1, 2026 (day 0).  2026 is not a leap year, and January 1, 2026 is a
Thursday, so the Python method `date.weekday()` (Monday = 0 … Sunday = 6) becomes
`(n + 3) % 7`.
-/

set_option maxRecDepth 40000

namespace LASweep

/-- Day counts of the twelve months of 2026 (not a leap year). -/
def monthLengths2026 : List Nat := [31, 28, 31, 30, 31, 30, 31, 31, 30, 31, 30, 31]

/-- Day index (0 = January 1, 2026) of day `d` of month `m` of 2026. -/
def mkDate (m d : Nat) : Nat :=
  (monthLengths2026.take (m - 1)).foldl (· + ·) 0 + (d - 1)

/-- Python `date.weekday()`: Monday = 0 … Sunday = 6. -/
def weekdayOf (n : Nat) : Nat := (n + 3) % 7

/-- The full weekday names produced by Python `date.strftime "%A"`. -/
def weekdayNames : List String :=
  ["Monday", "Tuesday", "Wednesday", "Thursday", "Friday", "Saturday", "Sunday"]

/-- Python `today.strftime "%A"` for a day index. -/
def weekdayNameOf (n : Nat) : String := weekdayNames.getD (weekdayOf n) ""

def monthOfAux : List Nat → Nat → Nat → Nat
  | [], _, m => m
  | len :: rest, n, m => if n < len then m else monthOfAux rest (n - len) (m + 1)

/-- Month number (1–12) containing day index `n` of 2026
(13 for indices past December 31, 2026). -/
def monthOf (n : Nat) : Nat := monthOfAux monthLengths2026 n 1

/-- The set `HOLIDAYS_2026` from `la_sweep_bot.py`, as day indices. -/
def holidays2026 : List Nat :=
  [mkDate 1 1, mkDate 1 19, mkDate 2 16, mkDate 3 31, mkDate 5 25, mkDate 7 3,
   mkDate 9 7, mkDate 11 11, mkDate 11 26, mkDate 11 27, mkDate 12 25]

/-- The mapping `DAY_NUM` from `la_sweep_bot.py`. -/
def dayNum : List (String × Nat) :=
  [("Monday", 0), ("Tuesday", 1), ("Wednesday", 2), ("Thursday", 3), ("Friday", 4)]

/-- The authored anchor table `_SWEEP_MONDAYS_2026`: (anchor Monday, week number). -/
def sweepMondays2026 : List (Nat × Nat) :=
  [(mkDate 1 5, 1), (mkDate 1 12, 2), (mkDate 1 19, 3), (mkDate 1 26, 4),
   (mkDate 2 2, 1), (mkDate 2 9, 2), (mkDate 2 16, 3), (mkDate 2 23, 4),
   (mkDate 3 2, 1), (mkDate 3 9, 2), (mkDate 3 16, 3), (mkDate 3 23, 4),
   (mkDate 4 6, 1), (mkDate 4 13, 2), (mkDate 4 20, 3), (mkDate 4 27, 4),
   (mkDate 5 4, 1), (mkDate 5 11, 2), (mkDate 5 18, 3), (mkDate 5 25, 4),
   (mkDate 6 1, 1), (mkDate 6 8, 2), (mkDate 6 15, 3), (mkDate 6 22, 4),
   (mkDate 7 6, 1), (mkDate 7 13, 2), (mkDate 7 20, 3), (mkDate 7 27, 4),
   (mkDate 8 3, 1), (mkDate 8 10, 2), (mkDate 8 17, 3), (mkDate 8 24, 4),
   (mkDate 9 7, 1), (mkDate 9 14, 2), (mkDate 9 21, 3), (mkDate 9 28, 4),
   (mkDate 10 5, 1), (mkDate 10 12, 2), (mkDate 10 19, 3), (mkDate 10 26, 4),
   (mkDate 11 2, 1), (mkDate 11 9, 2), (mkDate 11 16, 3), (mkDate 11 23, 4),
   (mkDate 12 7, 1), (mkDate 12 14, 2), (mkDate 12 21, 3), (mkDate 12 28, 4)]

/-- The (date, week) pairs inserted into `SWEEP_WEEK_2026`, in insertion order:
for each anchor Monday, that day through the following four days. -/
def sweepPairs : List (Nat × Nat) :=
  (sweepMondays2026.map (fun p => (List.range 5).map (fun o => (p.1 + o, p.2)))).flatten

/-- Lookup in the `SWEEP_WEEK_2026` dict.  The keys of `sweepPairs` are pairwise
distinct (`sweepPairs_keys_ascending` below), so first-match association-list
lookup agrees with Python dict insertion semantics. -/
def sweepWeek2026 (n : Nat) : Option Nat := sweepPairs.lookup n

/-- Python `"c" in s` for a one-character needle is character containment. -/
def hasMark (s : String) (c : Char) : Bool := s.data.contains c

/-- The schedule parser `_valid_weeks` from `la_sweep_bot.py`. -/
def validWeeks (schedule : String) : List Nat :=
  if hasMark schedule '1' && hasMark schedule '3' then [1, 3]
  else if hasMark schedule '2' && hasMark schedule '4' then [2, 4]
  else [1, 2, 3, 4]

/-- The test applied to candidate day `d` inside the `next_sweep_dates` scan:
right weekday, posted week in the schedule week set, not a holiday, and the
(always-true) `d >= today` guard from the source. -/
def sweepCond (targetDow : Nat) (valid : List Nat) (today d : Nat) : Bool :=
  weekdayOf d == targetDow &&
    (match sweepWeek2026 d with
     | some w => valid.contains w
     | none => false) &&
    !(holidays2026.contains d) &&
    decide (today ≤ d)

/-- The 120-iteration scan loop of `next_sweep_dates`: `fuel` is the number of
remaining iterations, `d` the current day, `results` the accumulator; a hit is
appended and the loop breaks once `count` results are collected. -/
def sweepScan (targetDow : Nat) (valid : List Nat) (count today : Nat) :
    Nat → Nat → List Nat → List Nat
  | 0, _, results => results
  | fuel + 1, d, results =>
    if sweepCond targetDow valid today d then
      let results2 := results ++ [d]
      if count ≤ results2.length then results2
      else sweepScan targetDow valid count today fuel (d + 1) results2
    else sweepScan targetDow valid count today fuel (d + 1) results

/-- The projector `next_sweep_dates` with the implicit current date made an
explicit `today` parameter. -/
def nextSweepDates (sweepDayName schedule : String) (count today : Nat) : List Nat :=
  match dayNum.lookup sweepDayName with
  | none => []
  | some dow => sweepScan dow (validWeeks schedule) count today 120 today []

/-- The predicate `is_sweep_today` with the implicit current date made explicit. -/
def isSweepToday (sweepDayName schedule : String) (today : Nat) : Bool :=
  if holidays2026.contains today then false
  else if weekdayNameOf today ≠ sweepDayName then false
  else
    match sweepWeek2026 today with
    | none => false
    | some w => (validWeeks schedule).contains w

/-- Number of days in the window `[d, d + fuel)` passing the scan filter. -/
def matchCount (targetDow : Nat) (valid : List Nat) (today : Nat) : Nat → Nat → Nat
  | 0, _ => 0
  | fuel + 1, d =>
    (if sweepCond targetDow valid today d then 1 else 0) +
      matchCount targetDow valid today fuel (d + 1)

/-- The dates of 2026 (as day indices, January 1 to December 31) that are
present in the posted-week calendar and fall inside calendar month `m`. -/
def presentDatesInMonth (m : Nat) : List Nat :=
  (List.range 365).filter (fun n => monthOf n == m && (sweepWeek2026 n).isSome)

/-- The anchor Mondays of the table that fall inside calendar month `m`. -/
def monthAnchors (m : Nat) : List Nat :=
  (sweepMondays2026.filter (fun p => monthOf p.1 == m)).map Prod.fst

/-- The earliest anchor Monday of month `m`. -/
def firstAnchorOfMonth (m : Nat) : Nat := (monthAnchors m).foldr min 365

/-- The latest anchor Monday of month `m`. -/
def lastAnchorOfMonth (m : Nat) : Nat := (monthAnchors m).foldr max 0

/-! ### Notification dispatcher (`send_notifications` in `la_sweep_bot.py`)
and subscription store (`db.py`).

Subscription rows are modelled with coordinates in `ℚ` (Python floats) and the
JSON-encoded `sweep_days` column decoded to its list of weekday names. -/

/-- The two messages `send_notifications` can build for a subscription. -/
inductive SweepMsg where
  | sweepTomorrow
  | sweepInTwoDays
deriving DecidableEq

/-- The message-selection loop of `send_notifications` over the sorted
upcoming dates: a date equal to `tomorrow` selects the one-day warning and
stops the loop; a date equal to `dayAfter` selects the two-day warning but
keeps scanning. -/
def classifyGo (tomorrow dayAfter : Nat) : Option SweepMsg → List Nat → Option SweepMsg
  | msg, [] => msg
  | msg, d :: rest =>
    if d = tomorrow then some SweepMsg.sweepTomorrow
    else if d = dayAfter then classifyGo tomorrow dayAfter (some SweepMsg.sweepInTwoDays) rest
    else classifyGo tomorrow dayAfter msg rest

/-- Classification of the upcoming dates of one subscription, iterating over
`sorted(upcoming)` as in the source. -/
def classifyDates (tomorrow dayAfter : Nat) (upcoming : List Nat) : Option SweepMsg :=
  classifyGo tomorrow dayAfter none (upcoming.insertionSort (· ≤ ·))

/-- The mutable per-row subscription fields replaced by an upsert. -/
structure SubFields where
  label : String
  sweepDays : List String
  sweepSchedule : String
  sweepTime : Option String
  streetName : Option String
  createdAt : Nat
deriving DecidableEq

/-- One row of the `subscriptions` table. -/
structure SubRow where
  id : Nat
  chatId : Int
  x : Rat
  y : Rat
  fields : SubFields
deriving DecidableEq

/-- The `subscriptions` table plus the AUTOINCREMENT id counter. -/
structure SubStore where
  rows : List SubRow
  nextId : Nat
deriving DecidableEq

/-- Python `round(q, 4)` modelled on `ℚ` (the tie-breaking convention of the
float rounding is immaterial to every claim, which only depends on the rounded
values themselves). -/
def round4 (q : Rat) : Rat := ((round (q * 10000) : Int) : Rat) / 10000

/-- `MAX_SUBSCRIPTIONS_PER_USER` from `db.py`. -/
def MAX_SUBSCRIPTIONS_PER_USER : Nat := 5

/-- The error string returned by `add_subscription` at the cap. -/
def capMessage : String :=
  "You already have 5 subscriptions. Use /unsubscribe to remove one first."

/-- The `UNIQUE(chat_id, x, y)` conflict test against a stored row. -/
def keyMatches (chatId : Int) (rx ry : Rat) (r : SubRow) : Bool :=
  r.chatId == chatId && r.x == rx && r.y == ry

/-- The function `add_subscription` from `db.py`: cap check on the count of
rows of the owner at a different rounded location, then upsert
(`INSERT ... ON CONFLICT(chat_id, x, y) DO UPDATE SET` every mutable field). -/
def addSubscription (st : SubStore) (chatId : Int) (x y : Rat) (f : SubFields) :
    Option String × SubStore :=
  let rx := round4 x
  let ry := round4 y
  let othersCount :=
    (st.rows.filter (fun r => r.chatId == chatId && !(r.x == rx && r.y == ry))).length
  if MAX_SUBSCRIPTIONS_PER_USER ≤ othersCount then
    (some capMessage, st)
  else if st.rows.any (keyMatches chatId rx ry) then
    (none,
      { st with
        rows := st.rows.map fun r =>
          if keyMatches chatId rx ry r then { r with fields := f } else r })
  else
    (none,
      { rows :=
          st.rows ++ [{ id := st.nextId, chatId := chatId, x := rx, y := ry, fields := f }],
        nextId := st.nextId + 1 })

/-- The function `remove_subscription` from `db.py`. -/
def removeSubscription (st : SubStore) (chatId : Int) (subId : Nat) : SubStore :=
  { st with rows := st.rows.filter (fun r => !(r.chatId == chatId && r.id == subId)) }

/-- The function `remove_all_subscriptions` from `db.py`. -/
def removeAllSubscriptions (st : SubStore) (chatId : Int) : SubStore :=
  { st with rows := st.rows.filter (fun r => !(r.chatId == chatId)) }

/-- The rows of one owner (`get_user_subscriptions` without the ORDER BY). -/
def ownerRows (st : SubStore) (chatId : Int) : List SubRow :=
  st.rows.filter (fun r => r.chatId == chatId)

/-- The identity key of a row: owner plus rounded coordinates. -/
def subKey (r : SubRow) : Int × Rat × Rat := (r.chatId, r.x, r.y)

/-- The `UNIQUE(chat_id, x, y)` invariant of the table. -/
def KeyUnique (st : SubStore) : Prop :=
  st.rows.Pairwise (fun r s => subKey r ≠ subKey s)

/-- The merged upcoming dates of one subscription across its sweep days, as
collected by `send_notifications` (two dates per weekday name). -/
def upcomingDates (today : Nat) (r : SubRow) : List Nat :=
  r.fields.sweepDays.flatMap
    (fun dayName => nextSweepDates dayName r.fields.sweepSchedule 2 today)

/-- The message `send_notifications` builds for one subscription row. -/
def subMessage (today : Nat) (r : SubRow) : Option SweepMsg :=
  classifyDates (today + 1) (today + 2) (upcomingDates today r)

/-- Result of one delivery attempt by the external transport: success,
`Forbidden` (recipient unreachable, permanent), or any other send error
(transient). -/
inductive DeliveryOutcome where
  | delivered
  | permanentFailure
  | transientFailure
deriving DecidableEq

/-- State threaded through one dispatcher run: the per-run blocked set, the
subscription table, and the log of owners a delivery was attempted to. -/
structure RunState where
  blocked : List Int
  store : List SubRow
  attempts : List Int
deriving DecidableEq

/-- The body of the `send_notifications` loop for one subscription: skip
blocked owners, classify, attempt delivery when a message was built; a
permanent failure blocks the owner and purges all rows of that owner. -/
def processSub (outcome : Int → DeliveryOutcome) (today : Nat)
    (st : RunState) (r : SubRow) : RunState :=
  if st.blocked.contains r.chatId then st
  else
    match subMessage today r with
    | none => st
    | some _ =>
      let attempted : RunState := { st with attempts := st.attempts ++ [r.chatId] }
      match outcome r.chatId with
      | DeliveryOutcome.delivered => attempted
      | DeliveryOutcome.transientFailure => attempted
      | DeliveryOutcome.permanentFailure =>
        { blocked := attempted.blocked ++ [r.chatId],
          store := attempted.store.filter (fun s => !(s.chatId == r.chatId)),
          attempts := attempted.attempts }

/-- One full daily run of `send_notifications`: the fetched subscription list
is processed sequentially, starting from an empty blocked set, with the store
initially holding exactly the fetched rows. -/
def sendNotifications (outcome : Int → DeliveryOutcome) (today : Nat)
    (subs : List SubRow) : RunState :=
  subs.foldl (processSub outcome today) { blocked := [], store := subs, attempts := [] }

/-! ### Supporting lemmas -/

/-- The keys of the posted-week table are strictly ascending in insertion
order, hence pairwise distinct: first-match lookup and Python dict overwrite
semantics agree on it. -/
theorem sweepPairs_keys_ascending : (sweepPairs.map Prod.fst).Pairwise (· < ·) := by
  decide

/-- A successful association-list lookup produces a pair of the list. -/
theorem lookup_pair_mem {α β : Type} [BEq α] [LawfulBEq α] :
    ∀ (l : List (α × β)) (a : α) (b : β), l.lookup a = some b → (a, b) ∈ l := by
  intro l
  induction l with
  | nil => intro a b h; simp [List.lookup_nil] at h
  | cons p t ih =>
    intro a b h
    obtain ⟨k, v⟩ := p
    rw [List.lookup_cons] at h
    cases hak : a == k with
    | true =>
      rw [hak] at h
      simp only [Option.some.injEq] at h
      subst h
      exact (eq_of_beq hak) ▸ List.mem_cons_self _ _
    | false =>
      rw [hak] at h
      exact List.mem_cons_of_mem _ (ih a b h)

/-- Every entry of the posted-week table is a Monday-to-Friday day with a
week number in 1..4, and every key is at most day index 365. -/
theorem sweepPairs_entry_facts :
    ∀ p ∈ sweepPairs, weekdayOf p.1 < 5 ∧ 1 ≤ p.2 ∧ p.2 ≤ 4 ∧ p.1 ≤ 365 := by decide

/-- A date present in the posted-week calendar falls on Monday–Friday. -/
theorem sweepWeek2026_weekday {n w : Nat} (h : sweepWeek2026 n = some w) :
    weekdayOf n < 5 :=
  (sweepPairs_entry_facts _ (lookup_pair_mem _ _ _ h)).1

/-- Every `DAY_NUM` entry maps a weekday name to its index in 0..4. -/
theorem dayNum_entry_facts :
    ∀ p ∈ dayNum, p.2 < 5 ∧ weekdayNames.getD p.2 "" = p.1 := by decide

/-- Lookup in `DAY_NUM` succeeds on the name of each weekday index 0..4. -/
theorem dayNum_lookup_weekdayName :
    ∀ k : Fin 5, dayNum.lookup (weekdayNames.getD k.1 "") = some k.1 := by decide

/-- Unfolding of the scan filter into its four conjuncts. -/
theorem sweepCond_iff {t : Nat} {v : List Nat} {today d : Nat} :
    sweepCond t v today d = true ↔
      weekdayOf d = t ∧ (∃ w, sweepWeek2026 d = some w ∧ w ∈ v) ∧
        d ∉ holidays2026 ∧ today ≤ d := by
  unfold sweepCond
  cases hw : sweepWeek2026 d <;>
    simp [hw, List.contains, List.elem_iff, Bool.and_eq_true, beq_iff_eq,
      Bool.not_eq_true', decide_eq_true_eq, and_assoc]

/-- Elements produced by the scan loop come from the accumulator or pass the
scan filter. -/
theorem sweepScan_mem (t : Nat) (v : List Nat) (c today : Nat) :
    ∀ (fuel d : Nat) (results : List Nat) (x : Nat),
      x ∈ sweepScan t v c today fuel d results →
      x ∈ results ∨ sweepCond t v today x = true := by
  intro fuel
  induction fuel with
  | zero => intro d results x hx; rw [sweepScan] at hx; exact Or.inl hx
  | succ n ih =>
    intro d results x hx
    rw [sweepScan] at hx
    cases hc : sweepCond t v today d with
    | false =>
      rw [hc] at hx
      simp only [Bool.false_eq_true, if_false] at hx
      exact ih _ _ _ hx
    | true =>
      rw [hc] at hx
      simp only [if_true] at hx
      by_cases hlen : c ≤ (results ++ [d]).length
      · rw [if_pos hlen] at hx
        rcases List.mem_append.1 hx with h | h
        · exact Or.inl h
        · simp only [List.mem_singleton] at h
          subst h
          exact Or.inr hc
      · rw [if_neg hlen] at hx
        rcases ih _ _ _ hx with h | h
        · rcases List.mem_append.1 h with h | h
          · exact Or.inl h
          · simp only [List.mem_singleton] at h
            subst h
            exact Or.inr hc
        · exact Or.inr h

/-- The scan loop never drops accumulated results. -/
theorem sweepScan_mem_mono (t : Nat) (v : List Nat) (c today : Nat) :
    ∀ (fuel d : Nat) (results : List Nat) (x : Nat),
      x ∈ results → x ∈ sweepScan t v c today fuel d results := by
  intro fuel
  induction fuel with
  | zero => intro d results x hx; rw [sweepScan]; exact hx
  | succ n ih =>
    intro d results x hx
    rw [sweepScan]
    cases hc : sweepCond t v today d with
    | false =>
      simp only [Bool.false_eq_true, if_false]
      exact ih _ _ _ hx
    | true =>
      simp only [if_true]
      by_cases hlen : c ≤ (results ++ [d]).length
      · rw [if_pos hlen]
        exact List.mem_append_left _ hx
      · rw [if_neg hlen]
        exact ih _ _ _ (List.mem_append_left _ hx)

/-- A day passing the filter at the head of the scan window is returned. -/
theorem sweepScan_self_mem (t : Nat) (v : List Nat) (c today fuel d : Nat)
    (results : List Nat) (h : sweepCond t v today d = true) :
    d ∈ sweepScan t v c today (fuel + 1) d results := by
  rw [sweepScan, h]
  simp only [if_true]
  by_cases hlen : c ≤ (results ++ [d]).length
  · rw [if_pos hlen]
    exact List.mem_append_right _ (List.mem_singleton.2 rfl)
  · rw [if_neg hlen]
    exact sweepScan_mem_mono t v c today _ _ _ _
      (List.mem_append_right _ (List.mem_singleton.2 rfl))

/-- Length of the scan result: the accumulator grows by the number of filter
hits in the window, clipped at `count`. -/
theorem sweepScan_length (t : Nat) (v : List Nat) (c today : Nat) :
    ∀ (fuel d : Nat) (results : List Nat), results.length < c →
      (sweepScan t v c today fuel d results).length =
        results.length + min (c - results.length) (matchCount t v today fuel d) := by
  intro fuel
  induction fuel with
  | zero =>
    intro d results _
    rw [sweepScan, matchCount]
    omega
  | succ n ih =>
    intro d results hlt
    rw [sweepScan, matchCount]
    cases hc : sweepCond t v today d with
    | false =>
      simp only [Bool.false_eq_true, if_false]
      rw [ih (d + 1) results hlt]
      omega
    | true =>
      simp only [if_true]
      by_cases hlen : c ≤ (results ++ [d]).length
      · rw [if_pos hlen]
        rw [List.length_append] at hlen ⊢
        simp only [List.length_singleton] at hlen ⊢
        omega
      · rw [if_neg hlen]
        rw [List.length_append] at hlen
        simp only [List.length_singleton] at hlen
        rw [ih (d + 1) (results ++ [d])
          (by rw [List.length_append]; simp only [List.length_singleton]; omega)]
        rw [List.length_append]
        simp only [List.length_singleton]
        omega

/-- The scan keeps its accumulator strictly ascending: newly appended days are
taken in increasing order past everything accumulated so far. -/
theorem sweepScan_sorted (t : Nat) (v : List Nat) (c today : Nat) :
    ∀ (fuel d : Nat) (results : List Nat),
      results.Pairwise (· < ·) → (∀ x ∈ results, x < d) →
      (sweepScan t v c today fuel d results).Pairwise (· < ·) := by
  intro fuel
  induction fuel with
  | zero => intro d results h1 _; rw [sweepScan]; exact h1
  | succ n ih =>
    intro d results h1 h2
    rw [sweepScan]
    have happ : (results ++ [d]).Pairwise (· < ·) := by
      rw [List.pairwise_append]
      exact ⟨h1, List.pairwise_singleton _ _,
        fun a ha b hb => (List.mem_singleton.1 hb) ▸ h2 a ha⟩
    have hb2 : ∀ x ∈ results ++ [d], x < d + 1 := by
      intro x hx
      rcases List.mem_append.1 hx with h | h
      · exact Nat.lt_succ_of_lt (h2 x h)
      · rw [List.mem_singleton.1 h]; exact Nat.lt_succ_self d
    cases hc : sweepCond t v today d with
    | false =>
      simp only [Bool.false_eq_true, if_false]
      exact ih _ _ h1 (fun x hx => Nat.lt_succ_of_lt (h2 x hx))
    | true =>
      simp only [if_true]
      by_cases hlen : c ≤ (results ++ [d]).length
      · rw [if_pos hlen]; exact happ
      · rw [if_neg hlen]; exact ih _ _ happ hb2

/-- Bool membership test versus propositional membership, for day lists. -/
theorem contains_iff_mem (l : List Nat) (a : Nat) : l.contains a = true ↔ a ∈ l := by
  simp [List.contains, List.elem_iff]

/-- Bool membership test false versus propositional non-membership. -/
theorem contains_eq_false_iff (l : List Nat) (a : Nat) :
    l.contains a = false ↔ a ∉ l := by
  rw [← contains_iff_mem l a]
  cases l.contains a <;> simp

/-- Bool membership test versus propositional membership, for owner lists. -/
theorem contains_iff_mem_int (l : List Int) (a : Int) :
    l.contains a = true ↔ a ∈ l := by
  simp [List.contains, List.elem_iff]

/-! ### Claim theorems -/

/-- C7: `is_sweep_today` is false on a holiday, false when the weekday name of
the day differs from the requested one, false when the day is absent from the
posted-week calendar, and otherwise reports membership of the posted week
number in the normalized schedule set. -/
theorem isSweepToday_spec (name schedule : String) (today : Nat) :
    (today ∈ holidays2026 → isSweepToday name schedule today = false) ∧
    (weekdayNameOf today ≠ name → isSweepToday name schedule today = false) ∧
    (sweepWeek2026 today = none → isSweepToday name schedule today = false) ∧
    (today ∉ holidays2026 → weekdayNameOf today = name →
      ∀ w, sweepWeek2026 today = some w →
        isSweepToday name schedule today = (validWeeks schedule).contains w) := by
  unfold isSweepToday
  refine ⟨?_, ?_, ?_, ?_⟩
  · intro h
    rw [(contains_iff_mem _ _).2 h]
    simp
  · intro h
    cases hh : holidays2026.contains today with
    | true => simp
    | false => simp [h]
  · intro h
    cases hh : holidays2026.contains today with
    | true => simp
    | false =>
      by_cases hn : weekdayNameOf today ≠ name
      · simp [hn]
      · simp [hn, h]
  · intro h1 h2 w hw
    rw [(contains_eq_false_iff _ _).2 h1]
    simp [h2, hw]

/-- C7 witness: January 19, 2026 is the MLK-Day holiday, a Monday of posted
week 3, and `is_sweep_today` is nevertheless false there. -/
theorem isSweepToday_spec_witness :
    isSweepToday "Monday" "1 & 3" (mkDate 1 19) = false :=
  (isSweepToday_spec "Monday" "1 & 3" (mkDate 1 19)).1 (by decide)

/-- C8: the schedule normalizer returns the week set 1-3 when the code
contains the markers 1 and 3, else the set 2-4 when it contains the markers
2 and 4, else all four weeks; with the three concrete example codes of the
spec, and never failing (the function is total by construction). -/
theorem validWeeks_spec (s : String) :
    (hasMark s '1' = true → hasMark s '3' = true → validWeeks s = [1, 3]) ∧
    (¬(hasMark s '1' = true ∧ hasMark s '3' = true) →
      hasMark s '2' = true → hasMark s '4' = true → validWeeks s = [2, 4]) ∧
    (¬(hasMark s '1' = true ∧ hasMark s '3' = true) →
      ¬(hasMark s '2' = true ∧ hasMark s '4' = true) →
      validWeeks s = [1, 2, 3, 4]) ∧
    validWeeks "1 & 3" = [1, 3] ∧
    validWeeks "2nd & 4th" = [2, 4] ∧
    validWeeks "garbage" = [1, 2, 3, 4] := by
  refine ⟨?_, ?_, ?_, by decide, by decide, by decide⟩
  · intro h1 h3
    unfold validWeeks
    rw [h1, h3]
    simp
  · intro hn h2 h4
    unfold validWeeks
    have h13 : (hasMark s '1' && hasMark s '3') = false := by
      cases ha : hasMark s '1' <;> cases hb : hasMark s '3' <;> simp_all
    rw [h13, h2, h4]
    simp
  · intro hn13 hn24
    unfold validWeeks
    have h13 : (hasMark s '1' && hasMark s '3') = false := by
      cases ha : hasMark s '1' <;> cases hb : hasMark s '3' <;> simp_all
    have h24 : (hasMark s '2' && hasMark s '4') = false := by
      cases ha : hasMark s '2' <;> cases hb : hasMark s '4' <;> simp_all
    rw [h13, h24]
    simp

/-- C8 witness: the first normalization rule applied to the code 1-and-3. -/
theorem validWeeks_spec_witness : validWeeks "1 & 3" = [1, 3] :=
  (validWeeks_spec "1 & 3").1 (by decide) (by decide)

/-- C10: an unknown weekday name (absent from `DAY_NUM`) makes
`next_sweep_dates` return the empty list for every schedule, count and
starting date (and the modelled function is total, so no error is raised). -/
theorem nextSweepDates_unknown_weekday (name : String)
    (h : dayNum.lookup name = none) (schedule : String) (count today : Nat) :
    nextSweepDates name schedule count today = [] := by
  unfold nextSweepDates
  rw [h]

/-- C10 witness: Saturday is not a key of `DAY_NUM`, and the scan returns
nothing for it. -/
theorem nextSweepDates_unknown_weekday_witness :
    nextSweepDates "Saturday" "1 & 3" 3 0 = [] :=
  nextSweepDates_unknown_weekday "Saturday" (by decide) "1 & 3" 3 0

/-- C2 counterexample: with `count = 0` the scan still returns the first hit
(the break `len(results) >= count` fires only after an append), so the claim
read over every count N fails at N = 0: starting Sunday March 1, 2026, zero
matches are trivially reachable, yet one date (Monday March 2) is returned. -/
theorem nextSweepDates_count_zero_cex :
    nextSweepDates "Monday" "1 & 3" 0 (mkDate 3 1) = [mkDate 3 2] ∧
    (nextSweepDates "Monday" "1 & 3" 0 (mkDate 3 1)).length ≠ 0 := by
  refine ⟨by decide, by decide⟩

/-- C2 (amended to counts N ≥ 1): for a known weekday name, the number of
returned dates is the number of filter hits in the 120-day window from today
inclusive, clipped at `count` (hence exactly `count` whenever that many are
reachable); every returned date has the requested weekday, is present in the
posted-week calendar with its week in the normalized schedule set, is not a
holiday and is not before today; the dates are strictly ascending; and the
scan is deterministic, so a second call with the same inputs returns the
identical sequence. -/
theorem nextSweepDates_spec (name schedule : String) (dow count today : Nat)
    (hname : dayNum.lookup name = some dow) (hcount : 1 ≤ count) :
    (nextSweepDates name schedule count today).length =
      min count (matchCount dow (validWeeks schedule) today 120 today) ∧
    (∀ x ∈ nextSweepDates name schedule count today,
      weekdayOf x = dow ∧
      (∃ w, sweepWeek2026 x = some w ∧ w ∈ validWeeks schedule) ∧
      x ∉ holidays2026 ∧ today ≤ x) ∧
    (nextSweepDates name schedule count today).Pairwise (· < ·) ∧
    nextSweepDates name schedule count today =
      nextSweepDates name schedule count today := by
  unfold nextSweepDates
  rw [hname]
  refine ⟨?_, ?_, ?_, rfl⟩
  · have h := sweepScan_length dow (validWeeks schedule) count today 120 today []
      (by simpa using hcount)
    simpa using h
  · intro x hx
    rcases sweepScan_mem _ _ _ _ _ _ _ _ hx with h | h
    · simp at h
    · exact sweepCond_iff.1 h
  · exact sweepScan_sorted _ _ _ _ _ _ _ List.Pairwise.nil (by simp)

/-- C2 witness: the amended theorem applied to Monday, schedule 1-and-3,
count 2, starting at day 0 (January 1, 2026). -/
theorem nextSweepDates_spec_witness :
    (nextSweepDates "Monday" "1 & 3" 2 0).length =
      min 2 (matchCount 0 (validWeeks "1 & 3") 0 120 0) ∧
    (nextSweepDates "Monday" "1 & 3" 2 0).Pairwise (· < ·) :=
  ⟨(nextSweepDates_spec "Monday" "1 & 3" 0 2 0 (by decide) (by decide)).1,
   (nextSweepDates_spec "Monday" "1 & 3" 0 2 0 (by decide) (by decide)).2.2.1⟩

/-- Characterization of `is_sweep_today`: true exactly when today is not a
holiday, has the requested weekday name, and carries a posted week number
lying in the normalized schedule set. -/
theorem isSweepToday_iff_conds (name schedule : String) (today : Nat) :
    isSweepToday name schedule today = true ↔
      today ∉ holidays2026 ∧ weekdayNameOf today = name ∧
        ∃ w, sweepWeek2026 today = some w ∧ w ∈ validWeeks schedule := by
  unfold isSweepToday
  cases hh : holidays2026.contains today with
  | true =>
    simp [(contains_iff_mem _ _).1 hh]
  | false =>
    have hmem : today ∉ holidays2026 := (contains_eq_false_iff _ _).1 hh
    by_cases hn : weekdayNameOf today = name
    · cases hw : sweepWeek2026 today with
      | none => simp [hn, hw, hmem]
      | some w => simp [hn, hw, hmem, contains_iff_mem]
    · simp [hn, hmem]

/-- C9: the two projector operations agree on whether today itself is a sweep
day: for every weekday name, schedule code, date and count N ≥ 1,
`is_sweep_today` holds exactly when today is among the dates returned by
`next_sweep_dates` evaluated at the same today. -/
theorem isSweepToday_iff_mem_nextSweepDates (name schedule : String)
    (today count : Nat) (hcount : 1 ≤ count) :
    (isSweepToday name schedule today = true ↔
      today ∈ nextSweepDates name schedule count today) := by
  constructor
  · intro h
    rcases (isSweepToday_iff_conds name schedule today).1 h with
      ⟨hhol, hname, w, hw, hwv⟩
    have hdow5 : weekdayOf today < 5 := sweepWeek2026_weekday hw
    have hlook : dayNum.lookup name = some (weekdayOf today) := by
      have hgd := dayNum_lookup_weekdayName ⟨weekdayOf today, hdow5⟩
      have hnm : weekdayNames.getD (weekdayOf today) "" = name := hname
      rw [hnm] at hgd
      exact hgd
    unfold nextSweepDates
    rw [hlook]
    have hcond : sweepCond (weekdayOf today) (validWeeks schedule) today today = true :=
      sweepCond_iff.2 ⟨rfl, ⟨w, hw, hwv⟩, hhol, le_refl _⟩
    exact sweepScan_self_mem _ _ _ _ 119 _ _ hcond
  · intro h
    unfold nextSweepDates at h
    cases hl : dayNum.lookup name with
    | none => rw [hl] at h; simp at h
    | some dow =>
      rw [hl] at h
      rcases sweepScan_mem _ _ _ _ _ _ _ _ h with h0 | hcond
      · simp at h0
      · rcases sweepCond_iff.1 hcond with ⟨hdw, ⟨w, hw, hwv⟩, hhol, _⟩
        have hfact := dayNum_entry_facts _ (lookup_pair_mem _ _ _ hl)
        refine (isSweepToday_iff_conds name schedule today).2 ⟨hhol, ?_, w, hw, hwv⟩
        show weekdayNames.getD (weekdayOf today) "" = name
        rw [hdw]
        exact hfact.2

/-- C9 witness: agreement at Monday March 9, 2026 with schedule 2-and-4 and
count 1 (both sides hold there). -/
theorem isSweepToday_iff_mem_nextSweepDates_witness :
    isSweepToday "Monday" "2 & 4" (mkDate 3 9) = true ↔
      mkDate 3 9 ∈ nextSweepDates "Monday" "2 & 4" 1 (mkDate 3 9) :=
  isSweepToday_iff_mem_nextSweepDates "Monday" "2 & 4" (mkDate 3 9) 1 (by decide)

set_option maxHeartbeats 4000000 in
/-- C1 counterexample: the expansion of an anchor Monday always covers five
weekdays even when they spill over the month end, so May 2026 holds 21 present
dates (not 20), and May 1, 2026 — a partial-week date before the first May
anchor (May 4) — is present in the map with week 4, spilled from the April 27
anchor.  The same happens for April (19), September (18), October (22) and
December (19, with a 20th entry on January 1, 2027). -/
theorem calendar_month_boundary_cex :
    (presentDatesInMonth 5).length = 21 ∧
    mkDate 5 1 < firstAnchorOfMonth 5 ∧
    sweepWeek2026 (mkDate 5 1) = some 4 := by
  refine ⟨by decide, by decide, by decide⟩

set_option maxHeartbeats 16000000 in
/-- C1 amended: a date is present in the posted-week calendar exactly when it
lies in the five-weekday span of some anchor Monday of the table (so each of
the twelve months contributes its 4 anchor weeks times 5 weekdays); the
per-calendar-month counts of present dates are 20 except where an anchor week
spills over a month end (April 19, May 21, September 18, October 22,
December 19); and the boundary examples of the spec hold: July 1 and July 2,
2026 are absent while July 6 maps to week 1. -/
theorem calendar_presence_spec :
    (∀ n : Fin 366, ((sweepWeek2026 n.1).isSome = true ↔
        ∃ p ∈ sweepMondays2026, p.1 ≤ n.1 ∧ n.1 ≤ p.1 + 4)) ∧
    (List.range 12).map (fun i => (presentDatesInMonth (i + 1)).length) =
      [20, 20, 20, 19, 21, 20, 20, 20, 18, 22, 20, 19] ∧
    sweepWeek2026 (mkDate 7 1) = none ∧
    sweepWeek2026 (mkDate 7 2) = none ∧
    sweepWeek2026 (mkDate 7 6) = some 1 := by
  refine ⟨by decide, by decide, by decide, by decide, by decide⟩

/-- C1 witness: the presence characterization instantiated at day 4
(January 5, 2026, the first anchor Monday). -/
theorem calendar_presence_spec_witness : (sweepWeek2026 4).isSome = true :=
  (calendar_presence_spec.1 ⟨4, by decide⟩).2
    ⟨(mkDate 1 5, 1), by decide, by decide, by decide⟩

/-- Any list containing the tomorrow date classifies to the one-day warning,
whatever message is pending: the loop breaks at the first tomorrow match and
the two-day branch never breaks. -/
theorem classifyGo_tomorrow_mem (tomorrow dayAfter : Nat) :
    ∀ (l : List Nat) (msg : Option SweepMsg), tomorrow ∈ l →
      classifyGo tomorrow dayAfter msg l = some SweepMsg.sweepTomorrow := by
  intro l
  induction l with
  | nil => intro msg h; simp at h
  | cons d rest ih =>
    intro msg h
    rw [classifyGo]
    by_cases hd : d = tomorrow
    · rw [if_pos hd]
    · rw [if_neg hd]
      have hmem : tomorrow ∈ rest := by
        rcases List.mem_cons.1 h with h1 | h1
        · exact absurd h1.symm hd
        · exact h1
      by_cases hda : d = dayAfter
      · rw [if_pos hda]; exact ih _ hmem
      · rw [if_neg hda]; exact ih _ hmem

/-- C5: in a dispatcher run, a subscription whose merged upcoming dates
contain both tomorrow and the day after produces exactly the one-day warning
and never the two-day warning — even when a date equal to the day after is
encountered before a later date equal to tomorrow. -/
theorem subMessage_tomorrow_priority (today : Nat) (r : SubRow)
    (h1 : today + 1 ∈ upcomingDates today r)
    (h2 : today + 2 ∈ upcomingDates today r) :
    subMessage today r = some SweepMsg.sweepTomorrow ∧
    subMessage today r ≠ some SweepMsg.sweepInTwoDays := by
  have hsorted : today + 1 ∈ (upcomingDates today r).insertionSort (· ≤ ·) :=
    (List.mem_insertionSort _).2 h1
  have hmain : subMessage today r = some SweepMsg.sweepTomorrow :=
    classifyGo_tomorrow_mem _ _ _ _ hsorted
  exact ⟨hmain, by rw [hmain]; simp⟩

/-- C5 witness: on Sunday March 8, 2026 a row sweeping Mondays and Tuesdays
with schedule 2-and-4 has both March 9 (tomorrow) and March 10 (day after)
upcoming, and only the one-day warning is produced. -/
theorem subMessage_tomorrow_priority_witness :
    subMessage (mkDate 3 8)
        { id := 1, chatId := 7, x := 0, y := 0,
          fields := { label := "A", sweepDays := ["Monday", "Tuesday"],
                      sweepSchedule := "2 & 4", sweepTime := none,
                      streetName := none, createdAt := 0 } } =
      some SweepMsg.sweepTomorrow :=
  (subMessage_tomorrow_priority (mkDate 3 8) _ (by decide) (by decide)).1

/-- Filtering with a predicate after filtering with its negation leaves
nothing. -/
theorem filter_not_then_filter {α : Type} (p : α → Bool) :
    ∀ l : List α, (l.filter (fun a => !(p a))).filter p = [] := by
  intro l
  induction l with
  | nil => rfl
  | cons a t ih =>
    by_cases hp : p a = true
    · simp [hp, ih]
    · simp [hp, ih]

/-- An empty filter result stays empty after interposing another filter. -/
theorem filter_of_filter_eq_nil {α : Type} (p q : α → Bool) {l : List α}
    (h : l.filter p = []) : (l.filter q).filter p = [] := by
  have hsub : ((l.filter q).filter p).Sublist (l.filter p) :=
    List.Sublist.filter p (List.filter_sublist l)
  rw [h] at hsub
  exact List.sublist_nil.mp hsub

/-- Invariant preserved by one dispatcher step, for an owner `o` whose
deliveries fail permanently: either `o` was never attempted and is not
blocked, or `o` was attempted exactly once, is blocked, and owns no row of
the store. -/
theorem processSub_inv (outcome : Int → DeliveryOutcome) (today : Nat) (o : Int)
    (hperm : outcome o = DeliveryOutcome.permanentFailure)
    (st : RunState) (r : SubRow)
    (h : (o ∉ st.blocked ∧ st.attempts.count o = 0) ∨
         (o ∈ st.blocked ∧ st.attempts.count o = 1 ∧
           st.store.filter (fun s => s.chatId == o) = [])) :
    (o ∉ (processSub outcome today st r).blocked ∧
       (processSub outcome today st r).attempts.count o = 0) ∨
    (o ∈ (processSub outcome today st r).blocked ∧
       (processSub outcome today st r).attempts.count o = 1 ∧
       (processSub outcome today st r).store.filter (fun s => s.chatId == o) = []) := by
  unfold processSub
  cases hbl : st.blocked.contains r.chatId with
  | true =>
    simp only [if_true]
    exact h
  | false =>
    simp only [Bool.false_eq_true, if_false]
    cases hmsg : subMessage today r with
    | none => exact h
    | some m =>
      simp only []
      cases hout : outcome r.chatId with
      | delivered =>
        have hro : r.chatId ≠ o := fun he => by rw [he, hperm] at hout; cases hout
        rcases h with ⟨hnb, hcnt⟩ | ⟨hin, hcnt, hst⟩
        · refine Or.inl ⟨hnb, ?_⟩
          simp [List.count_append, hcnt, List.count_singleton', hro, Ne.symm hro]
        · refine Or.inr ⟨hin, ?_, hst⟩
          simp [List.count_append, hcnt, List.count_singleton', hro, Ne.symm hro]
      | transientFailure =>
        have hro : r.chatId ≠ o := fun he => by rw [he, hperm] at hout; cases hout
        rcases h with ⟨hnb, hcnt⟩ | ⟨hin, hcnt, hst⟩
        · refine Or.inl ⟨hnb, ?_⟩
          simp [List.count_append, hcnt, List.count_singleton', hro, Ne.symm hro]
        · refine Or.inr ⟨hin, ?_, hst⟩
          simp [List.count_append, hcnt, List.count_singleton', hro, Ne.symm hro]
      | permanentFailure =>
        by_cases hro : r.chatId = o
        · subst hro
          have hnb : r.chatId ∉ st.blocked := by
            intro hm
            rw [(contains_iff_mem_int _ _).2 hm] at hbl
            cases hbl
          rcases h with ⟨_, hcnt⟩ | ⟨hin, _, _⟩
          · refine Or.inr ⟨?_, ?_, ?_⟩
            · exact List.mem_append_right _ (List.mem_singleton.2 rfl)
            · simp [List.count_append, hcnt, List.count_singleton]
            · exact filter_not_then_filter _ _
          · exact absurd hin hnb
        · rcases h with ⟨hnb, hcnt⟩ | ⟨hin, hcnt, hst⟩
          · refine Or.inl ⟨?_, ?_⟩
            · intro hm
              rcases List.mem_append.1 hm with h1 | h1
              · exact hnb h1
              · exact hro (List.mem_singleton.1 h1).symm
            · simp [List.count_append, hcnt, List.count_singleton', hro, Ne.symm hro]
          · refine Or.inr ⟨List.mem_append_left _ hin, ?_, ?_⟩
            · simp [List.count_append, hcnt, List.count_singleton', hro, Ne.symm hro]
            · exact filter_of_filter_eq_nil _ _ hst

/-- The dispatcher invariant carried through the whole fold. -/
theorem sendLoop_inv (outcome : Int → DeliveryOutcome) (today : Nat) (o : Int)
    (hperm : outcome o = DeliveryOutcome.permanentFailure) :
    ∀ (subs : List SubRow) (st : RunState),
      ((o ∉ st.blocked ∧ st.attempts.count o = 0) ∨
        (o ∈ st.blocked ∧ st.attempts.count o = 1 ∧
          st.store.filter (fun s => s.chatId == o) = [])) →
      ((o ∉ (subs.foldl (processSub outcome today) st).blocked ∧
          (subs.foldl (processSub outcome today) st).attempts.count o = 0) ∨
        (o ∈ (subs.foldl (processSub outcome today) st).blocked ∧
          (subs.foldl (processSub outcome today) st).attempts.count o = 1 ∧
          (subs.foldl (processSub outcome today) st).store.filter
            (fun s => s.chatId == o) = [])) := by
  intro subs
  induction subs with
  | nil => intro st h; exact h
  | cons r rest ih =>
    intro st h
    exact ih _ (processSub_inv outcome today o hperm st r h)

/-- C6: if deliveries to owner `o` fail permanently and some delivery to `o`
is attempted during a dispatcher run, then at the end of the run no
subscription of `o` remains in the store and exactly one delivery to `o` was
ever attempted (the failing one blocks `o`, so every later subscription of
`o` is skipped). -/
theorem purge_on_permanent_failure (outcome : Int → DeliveryOutcome)
    (today : Nat) (subs : List SubRow) (o : Int)
    (hperm : outcome o = DeliveryOutcome.permanentFailure)
    (hattempt : o ∈ (sendNotifications outcome today subs).attempts) :
    (sendNotifications outcome today subs).store.filter
      (fun s => s.chatId == o) = [] ∧
    (sendNotifications outcome today subs).attempts.count o = 1 := by
  have hinv := sendLoop_inv outcome today o hperm subs
      { blocked := [], store := subs, attempts := [] }
      (Or.inl ⟨by simp, by simp⟩)
  rcases hinv with ⟨_, hcnt⟩ | ⟨_, hcnt, hst⟩
  · exact absurd hattempt (List.count_eq_zero.mp hcnt)
  · exact ⟨hst, hcnt⟩

/-- C6 witness: three rows (two of owner 7, one of owner 9) on the evening
before a sweep Monday, with owner 7 unreachable: both conclusions evaluated
through the theorem. -/
theorem purge_on_permanent_failure_witness :
    (sendNotifications
        (fun c => if c == 7 then DeliveryOutcome.permanentFailure
                  else DeliveryOutcome.delivered)
        (mkDate 3 8)
        [{ id := 1, chatId := 7, x := 0, y := 0,
           fields := { label := "A", sweepDays := ["Monday"],
                       sweepSchedule := "2 & 4", sweepTime := none,
                       streetName := none, createdAt := 0 } },
         { id := 2, chatId := 7, x := 1, y := 1,
           fields := { label := "B", sweepDays := ["Monday"],
                       sweepSchedule := "2 & 4", sweepTime := none,
                       streetName := none, createdAt := 0 } },
         { id := 3, chatId := 9, x := 2, y := 2,
           fields := { label := "C", sweepDays := ["Monday"],
                       sweepSchedule := "2 & 4", sweepTime := none,
                       streetName := none, createdAt := 0 } }]).store.filter
      (fun s => s.chatId == 7) = [] ∧
    (sendNotifications
        (fun c => if c == 7 then DeliveryOutcome.permanentFailure
                  else DeliveryOutcome.delivered)
        (mkDate 3 8)
        [{ id := 1, chatId := 7, x := 0, y := 0,
           fields := { label := "A", sweepDays := ["Monday"],
                       sweepSchedule := "2 & 4", sweepTime := none,
                       streetName := none, createdAt := 0 } },
         { id := 2, chatId := 7, x := 1, y := 1,
           fields := { label := "B", sweepDays := ["Monday"],
                       sweepSchedule := "2 & 4", sweepTime := none,
                       streetName := none, createdAt := 0 } },
         { id := 3, chatId := 9, x := 2, y := 2,
           fields := { label := "C", sweepDays := ["Monday"],
                       sweepSchedule := "2 & 4", sweepTime := none,
                       streetName := none, createdAt := 0 } }]).attempts.count 7 = 1 :=
  purge_on_permanent_failure _ (mkDate 3 8) _ 7 (by decide) (by decide)

/-- Rounding to four decimals fixes integer coordinates. -/
theorem round4_intCast (n : Int) : round4 ((n : Rat)) = (n : Rat) := by
  unfold round4
  have h1 : ((n : Rat) * 10000) = ((n * 10000 : Int) : Rat) := by push_cast; ring
  rw [h1, round_intCast]
  push_cast
  rw [mul_div_assoc]
  norm_num

/-- Rounding to four decimals fixes natural-number coordinates. -/
theorem round4_natCast (n : Nat) : round4 ((n : Rat)) = (n : Rat) := by
  have h := round4_intCast (n : Int)
  push_cast at h
  exact h

theorem round4_fix0 : round4 (0 : Rat) = 0 := by simpa using round4_natCast 0

theorem round4_fix1 : round4 (1 : Rat) = 1 := by simpa using round4_natCast 1

theorem round4_fix2 : round4 (2 : Rat) = 2 := by simpa using round4_natCast 2

theorem round4_fix3 : round4 (3 : Rat) = 3 := by simpa using round4_natCast 3

theorem round4_fix4 : round4 (4 : Rat) = 4 := by simpa using round4_natCast 4

theorem round4_fix9 : round4 (9 : Rat) = 9 := by simpa using round4_natCast 9

/-- C3: an owner holding five subscriptions, none of them at the rounded
location being written, is refused with the cap error (whose text states the
cap of five) and the store is unchanged; writing a rounded location the owner
already holds succeeds and replaces the fields of that row in place. -/
theorem addSubscription_cap_and_upsert (st : SubStore) (o : Int)
    (x1 y1 x2 y2 : Rat) (f : SubFields)
    (h5 : (ownerRows st o).length = 5)
    (hnew : ∀ r ∈ st.rows, r.chatId = o → ¬(r.x = round4 x1 ∧ r.y = round4 y1))
    (hold : ∃ r ∈ st.rows, r.chatId = o ∧ r.x = round4 x2 ∧ r.y = round4 y2) :
    (addSubscription st o x1 y1 f = (some capMessage, st) ∧
      hasMark capMessage '5' = true) ∧
    ((addSubscription st o x2 y2 f).1 = none ∧
      (addSubscription st o x2 y2 f).2.rows = st.rows.map fun r =>
        if keyMatches o (round4 x2) (round4 y2) r then { r with fields := f }
        else r) := by
  constructor
  · refine ⟨?_, by decide⟩
    have hfeq : st.rows.filter
        (fun r => r.chatId == o && !(r.x == round4 x1 && r.y == round4 y1)) =
        st.rows.filter (fun r => r.chatId == o) := by
      apply List.filter_congr
      intro r hr
      cases hc : (r.chatId == o) with
      | false => simp
      | true =>
        have hco : r.chatId = o := eq_of_beq hc
        have hkey : (r.x == round4 x1 && r.y == round4 y1) = false := by
          have hne := hnew r hr hco
          cases hx : (r.x == round4 x1) with
          | false => simp
          | true =>
            cases hy : (r.y == round4 y1) with
            | false => simp
            | true => exact absurd ⟨eq_of_beq hx, eq_of_beq hy⟩ hne
        simp [hkey]
    have h5' : (st.rows.filter (fun r => r.chatId == o)).length = 5 := h5
    simp only [addSubscription]
    rw [hfeq, h5']
    simp [MAX_SUBSCRIPTIONS_PER_USER]
  · obtain ⟨r0, hr0mem, hr0o, hr0x, hr0y⟩ := hold
    have hswap : st.rows.filter
        (fun r => r.chatId == o && !(r.x == round4 x2 && r.y == round4 y2)) =
        st.rows.filter
          (fun r => !(r.x == round4 x2 && r.y == round4 y2) && (r.chatId == o)) :=
      List.filter_congr (fun r _ => Bool.and_comm _ _)
    have hff : st.rows.filter
        (fun r => !(r.x == round4 x2 && r.y == round4 y2) && (r.chatId == o)) =
        (st.rows.filter (fun r => r.chatId == o)).filter
          (fun r => !(r.x == round4 x2 && r.y == round4 y2)) :=
      (List.filter_filter _ _).symm
    have hlt : (st.rows.filter
        (fun r => r.chatId == o && !(r.x == round4 x2 && r.y == round4 y2))).length
          < 5 := by
      rw [hswap, hff]
      have hdrop : ((st.rows.filter (fun r => r.chatId == o)).filter
          (fun r => !(r.x == round4 x2 && r.y == round4 y2))).length <
            (st.rows.filter (fun r => r.chatId == o)).length := by
        apply List.length_filter_lt_length_iff_exists.mpr
        refine ⟨r0, List.mem_filter.mpr ⟨hr0mem, by simp [hr0o]⟩, ?_⟩
        simp [hr0x, hr0y]
      have h5' : (st.rows.filter (fun r => r.chatId == o)).length = 5 := h5
      omega
    have hany : st.rows.any (keyMatches o (round4 x2) (round4 y2)) = true :=
      List.any_eq_true.mpr ⟨r0, hr0mem, by simp [keyMatches, hr0o, hr0x, hr0y]⟩
    have hcap : ¬(MAX_SUBSCRIPTIONS_PER_USER ≤ (st.rows.filter
        (fun r => r.chatId == o && !(r.x == round4 x2 && r.y == round4 y2))).length) := by
      unfold MAX_SUBSCRIPTIONS_PER_USER
      omega
    constructor
    · simp only [addSubscription]
      rw [if_neg hcap, hany]
      simp
    · simp only [addSubscription]
      rw [if_neg hcap, hany]
      simp

/-- C3 witness: owner 7 holds five distinct rounded locations; a sixth
location is refused with the cap message and no store change. -/
theorem addSubscription_cap_and_upsert_witness :
    addSubscription
        { rows :=
            [{ id := 0, chatId := 7, x := (0 : Rat), y := (0 : Rat),
               fields := { label := "a", sweepDays := ["Monday"],
                           sweepSchedule := "1 & 3", sweepTime := none,
                           streetName := none, createdAt := 0 } },
             { id := 1, chatId := 7, x := (1 : Rat), y := (0 : Rat),
               fields := { label := "b", sweepDays := ["Monday"],
                           sweepSchedule := "1 & 3", sweepTime := none,
                           streetName := none, createdAt := 0 } },
             { id := 2, chatId := 7, x := (2 : Rat), y := (0 : Rat),
               fields := { label := "c", sweepDays := ["Monday"],
                           sweepSchedule := "1 & 3", sweepTime := none,
                           streetName := none, createdAt := 0 } },
             { id := 3, chatId := 7, x := (3 : Rat), y := (0 : Rat),
               fields := { label := "d", sweepDays := ["Monday"],
                           sweepSchedule := "1 & 3", sweepTime := none,
                           streetName := none, createdAt := 0 } },
             { id := 4, chatId := 7, x := (4 : Rat), y := (0 : Rat),
               fields := { label := "e", sweepDays := ["Monday"],
                           sweepSchedule := "1 & 3", sweepTime := none,
                           streetName := none, createdAt := 0 } }],
          nextId := 5 }
        7 (9 : Rat) (0 : Rat)
        { label := "f", sweepDays := ["Friday"], sweepSchedule := "2 & 4",
          sweepTime := none, streetName := none, createdAt := 1 } =
      (some capMessage,
        { rows :=
            [{ id := 0, chatId := 7, x := (0 : Rat), y := (0 : Rat),
               fields := { label := "a", sweepDays := ["Monday"],
                           sweepSchedule := "1 & 3", sweepTime := none,
                           streetName := none, createdAt := 0 } },
             { id := 1, chatId := 7, x := (1 : Rat), y := (0 : Rat),
               fields := { label := "b", sweepDays := ["Monday"],
                           sweepSchedule := "1 & 3", sweepTime := none,
                           streetName := none, createdAt := 0 } },
             { id := 2, chatId := 7, x := (2 : Rat), y := (0 : Rat),
               fields := { label := "c", sweepDays := ["Monday"],
                           sweepSchedule := "1 & 3", sweepTime := none,
                           streetName := none, createdAt := 0 } },
             { id := 3, chatId := 7, x := (3 : Rat), y := (0 : Rat),
               fields := { label := "d", sweepDays := ["Monday"],
                           sweepSchedule := "1 & 3", sweepTime := none,
                           streetName := none, createdAt := 0 } },
             { id := 4, chatId := 7, x := (4 : Rat), y := (0 : Rat),
               fields := { label := "e", sweepDays := ["Monday"],
                           sweepSchedule := "1 & 3", sweepTime := none,
                           streetName := none, createdAt := 0 } }],
          nextId := 5 }) :=
  (addSubscription_cap_and_upsert _ 7 _ _ (2 : Rat) (0 : Rat) _
    (by decide)
    (by simp [round4_fix9, round4_fix0])
    ⟨{ id := 2, chatId := 7, x := (2 : Rat), y := (0 : Rat),
       fields := { label := "c", sweepDays := ["Monday"],
                   sweepSchedule := "1 & 3", sweepTime := none,
                   streetName := none, createdAt := 0 } },
     by simp,
     ⟨rfl, round4_fix2.symm, round4_fix0.symm⟩⟩).1.1

/-- The upsert rewrite of a row never changes its identity key. -/
theorem subKey_update (o : Int) (rx ry : Rat) (f : SubFields) (r : SubRow) :
    subKey (if keyMatches o rx ry r then { r with fields := f } else r) = subKey r := by
  by_cases h : keyMatches o rx ry r = true
  · rw [if_pos h]; rfl
  · rw [if_neg h]

/-- C4: on a store whose rows have pairwise distinct (owner, rounded-x,
rounded-y) keys, every store operation preserves that uniqueness, and an
`add_subscription` whose key already exists never adds a row: the row count is
unchanged and on success the matching row is field-replaced in place. -/
theorem store_key_uniqueness (st : SubStore) (h : KeyUnique st) (o : Int)
    (x y : Rat) (f : SubFields) (sid : Nat) :
    KeyUnique (addSubscription st o x y f).2 ∧
    KeyUnique (removeSubscription st o sid) ∧
    KeyUnique (removeAllSubscriptions st o) ∧
    ((∃ r ∈ st.rows, subKey r = (o, round4 x, round4 y)) →
      (addSubscription st o x y f).2.rows.length = st.rows.length ∧
      ((addSubscription st o x y f).1 = none →
        (addSubscription st o x y f).2.rows = st.rows.map fun r =>
          if keyMatches o (round4 x) (round4 y) r then { r with fields := f }
          else r)) := by
  refine ⟨?_, ?_, ?_, ?_⟩
  · simp only [addSubscription]
    by_cases hcap : MAX_SUBSCRIPTIONS_PER_USER ≤ (st.rows.filter
        (fun r => r.chatId == o && !(r.x == round4 x && r.y == round4 y))).length
    · rw [if_pos hcap]; exact h
    · rw [if_neg hcap]
      cases hany : st.rows.any (keyMatches o (round4 x) (round4 y)) with
      | true =>
        simp only [if_true]
        unfold KeyUnique at h ⊢
        rw [List.pairwise_map]
        refine List.Pairwise.imp ?_ h
        intro a b hab
        rw [subKey_update, subKey_update]
        exact hab
      | false =>
        simp only [Bool.false_eq_true, if_false]
        unfold KeyUnique at h ⊢
        rw [List.pairwise_append]
        refine ⟨h, List.pairwise_singleton _ _, ?_⟩
        intro a ha b hb
        rw [List.mem_singleton.1 hb]
        intro hk
        unfold subKey at hk
        simp only [Prod.mk.injEq] at hk
        have hkm : keyMatches o (round4 x) (round4 y) a = true := by
          unfold keyMatches
          simp [hk.1, hk.2.1, hk.2.2]
        have hfalse := List.any_eq_false.mp hany a ha
        rw [hkm] at hfalse
        exact hfalse rfl
  · unfold KeyUnique removeSubscription
    exact List.Pairwise.sublist (List.filter_sublist _) h
  · unfold KeyUnique removeAllSubscriptions
    exact List.Pairwise.sublist (List.filter_sublist _) h
  · rintro ⟨r0, hr0, hkey⟩
    have hany : st.rows.any (keyMatches o (round4 x) (round4 y)) = true := by
      refine List.any_eq_true.mpr ⟨r0, hr0, ?_⟩
      unfold subKey at hkey
      simp only [Prod.mk.injEq] at hkey
      unfold keyMatches
      simp [hkey.1, hkey.2.1, hkey.2.2]
    simp only [addSubscription]
    by_cases hcap : MAX_SUBSCRIPTIONS_PER_USER ≤ (st.rows.filter
        (fun r => r.chatId == o && !(r.x == round4 x && r.y == round4 y))).length
    · rw [if_pos hcap]
      exact ⟨rfl, fun hnone => by simp at hnone⟩
    · rw [if_neg hcap, hany]
      refine ⟨?_, fun _ => ?_⟩
      · simp
      · simp

/-- C4 witness: a single-row store with owner 7; re-adding the same rounded
location keeps the row count at one, and removing all rows for an owner
preserves key uniqueness. -/
theorem store_key_uniqueness_witness :
    (addSubscription
        { rows := [{ id := 0, chatId := 7, x := (2 : Rat),
                     y := (3 : Rat),
                     fields := { label := "a", sweepDays := ["Monday"],
                                 sweepSchedule := "1 & 3", sweepTime := none,
                                 streetName := none, createdAt := 0 } }],
          nextId := 1 }
        7 (2 : Rat) (3 : Rat)
        { label := "b", sweepDays := ["Friday"], sweepSchedule := "2 & 4",
          sweepTime := none, streetName := none, createdAt := 1 }).2.rows.length = 1 ∧
    KeyUnique (removeAllSubscriptions
        { rows := [{ id := 0, chatId := 7, x := (2 : Rat),
                     y := (3 : Rat),
                     fields := { label := "a", sweepDays := ["Monday"],
                                 sweepSchedule := "1 & 3", sweepTime := none,
                                 streetName := none, createdAt := 0 } }],
          nextId := 1 } 7) :=
  ⟨((store_key_uniqueness _ (by simp [KeyUnique]) 7 (2 : Rat)
        (3 : Rat) _ 0).2.2.2
      ⟨{ id := 0, chatId := 7, x := (2 : Rat), y := (3 : Rat),
         fields := { label := "a", sweepDays := ["Monday"],
                     sweepSchedule := "1 & 3", sweepTime := none,
                     streetName := none, createdAt := 0 } },
       by rw [round4_fix2, round4_fix3]; exact ⟨List.mem_singleton.mpr rfl, rfl⟩⟩).1,
   (store_key_uniqueness _ (by simp [KeyUnique]) 7 (2 : Rat)
        (3 : Rat)
        { label := "b", sweepDays := ["Friday"], sweepSchedule := "2 & 4",
          sweepTime := none, streetName := none, createdAt := 1 } 0).2.2.1⟩

end LASweep
